import Mathlib

/-!
Shallow embedding of the leave-management core of the attendance backend
(`app/api/v1/leaves.py`, `app/services/leave_service.py`, `app/schemas/leave.py`,
`app/models/leave.py`, `app/models/employee.py`, `app/models/notification.py`,
`app/dependencies.py`), together with theorems settling the frozen claims
about the leave lifecycle, the balance ledger and the authorization policy.

Conventions of the embedding:
  * SQLAlchemy sessions become an explicit `DB` value threaded through each
    route handler; `query(...).filter(...).first()` becomes `List.find?`,
    in-place mutation of the first matching ORM row becomes `update_first`.
  * `Decimal` columns become `Rat` (decimal arithmetic in the source is exact).
  * Python `date` values become `Date`: `dayIndex` is the absolute ordinal used
    by date subtraction and comparison, `year` is the `.year` attribute.
  * Timestamps (`datetime.now()`, `applied_on`, ...) are an abstract `Int`
    supplied by the caller as `now`.
  * An `HTTPException` raise site becomes the `LeaveError` constructor matching
    the error taxonomy of the specification: 404 "... not found" is `notFound`,
    403 is `forbidden`, 400 "Cannot modify/cancel application with status ..."
    is `invalidStateTransition`, 400 "Insufficient leave balance ..." is
    `insufficientBalance`, and a pydantic request-validation failure (422) is
    `validationError`.  A Python crash inside a handler (e.g. an attribute
    access on `None`) aborts the request before `db.commit()` and surfaces as
    a 500; it is modelled as `internalError` with the database unchanged.
  * pydantic request validation runs before the handler body; each handler
    embedding therefore starts with the field validators of its request schema.
-/

namespace Attendance

/-- Embedding of `LeaveStatus` (`app/models/leave.py`). -/
inductive LeaveStatus where
  | pending
  | approved
  | rejected
  | cancelled
deriving DecidableEq, Repr

/-- Embedding of `UserRole` (`app/models/employee.py`). -/
inductive UserRole where
  | admin
  | manager
  | employee
deriving DecidableEq, Repr

/-- Embedding of `NotificationType` (`app/models/notification.py`). -/
inductive NotificationType where
  | leave
  | attendance
  | rave
  | system
deriving DecidableEq, Repr

/-- A calendar date: `dayIndex` is the absolute ordinal (used by Python date
subtraction and comparison), `year` is the `.year` attribute. -/
structure Date where
  year : Int
  dayIndex : Int
deriving DecidableEq, Repr

/-- Rendering of a date inside notification messages; the exact format is
irrelevant to every claim. -/
def dateStr (d : Date) : String :=
  toString d.year ++ "-" ++ toString d.dayIndex

/-- The fields of `Employee` (`app/models/employee.py`) that the leave routes
read: identity, name, reporting manager and role. -/
structure Employee where
  employee_id : Int
  first_name : String
  last_name : String
  manager_id : Option Int
  role : UserRole
deriving DecidableEq, Repr

/-- Embedding of the `full_name` property of `Employee`. -/
def Employee.full_name (e : Employee) : String :=
  e.first_name ++ " " ++ e.last_name

/-- The fields of `LeaveType` (`app/models/leave.py`) that the leave routes
read. -/
structure LeaveType where
  leave_type_id : Int
  type_name : String
deriving DecidableEq, Repr

/-- Embedding of `LeaveBalance` (`app/models/leave.py`). -/
structure LeaveBalance where
  balance_id : Int
  employee_id : Int
  leave_type_id : Int
  year : Int
  total_allocated : Rat
  used_days : Rat
  remaining_days : Rat
deriving DecidableEq, Repr

/-- Embedding of `LeaveApplication` (`app/models/leave.py`). -/
structure LeaveApplication where
  leave_application_id : Int
  employee_id : Int
  leave_type_id : Int
  start_date : Date
  end_date : Date
  total_days : Rat
  reason : String
  status : LeaveStatus
  approved_by : Option Int
  applied_on : Int
  approved_rejected_on : Option Int
  rejection_reason : Option String
  attachments : Option String
deriving DecidableEq, Repr

/-- Embedding of `Notification` (`app/models/notification.py`), keeping the
fields `create_notification` sets. -/
structure Notification where
  employee_id : Int
  title : String
  message : String
  ntype : NotificationType
  link : Option String
deriving DecidableEq, Repr

/-- The relational store visible to the leave routes.  `next_app_id` models
the autoincrement primary key of `leave_applications`. -/
structure DB where
  employees : List Employee
  leave_types : List LeaveType
  balances : List LeaveBalance
  applications : List LeaveApplication
  notifications : List Notification
  next_app_id : Int
deriving DecidableEq, Repr

/-- Typed failures of the leave routes, one constructor per raise site kind
(see the module docstring for the mapping from HTTP responses). -/
inductive LeaveError where
  | notFound
  | forbidden
  | invalidStateTransition
  | insufficientBalance
  | validationError
  | internalError
deriving DecidableEq, Repr

/-- Replace the first element satisfying `p` by its image under `f`; this is
how an in-place mutation of `query(...).first()` acts on the row list. -/
def update_first (p : α → Bool) (f : α → α) : List α → List α
  | [] => []
  | x :: xs => if p x then f x :: xs else x :: update_first p f xs

/-- Embedding of `calculate_leave_days` (`app/api/v1/leaves.py`):
`(end_date - start_date).days + 1`. -/
def calculate_leave_days (start_date end_date : Date) : Rat :=
  ((end_date.dayIndex - start_date.dayIndex + 1 : Int) : Rat)

/-- Embedding of the `create_notification` helper (`app/api/v1/leaves.py`):
adds a notification row to the session. -/
def create_notification (db : DB) (employee_id : Int) (title message : String)
    (ntype : NotificationType) (link : Option String) : DB :=
  { db with notifications := db.notifications ++
      [{ employee_id := employee_id, title := title, message := message,
         ntype := ntype, link := link }] }

/-- The `LeaveApplication` lookup by primary key used by every route. -/
def find_application (db : DB) (application_id : Int) : Option LeaveApplication :=
  db.applications.find? (fun a => a.leave_application_id == application_id)

/-- The filter on `LeaveBalance` by `(employee_id, leave_type_id, year)` used
by the routes and the service layer. -/
def balance_matches (employee_id leave_type_id year : Int) (b : LeaveBalance) : Bool :=
  b.employee_id == employee_id && b.leave_type_id == leave_type_id && b.year == year

/-- The `LeaveBalance` lookup `query(LeaveBalance).filter(and_(...)).first()`. -/
def find_balance (db : DB) (employee_id leave_type_id year : Int) : Option LeaveBalance :=
  db.balances.find? (balance_matches employee_id leave_type_id year)

/-- The `LeaveType` lookup by primary key. -/
def find_leave_type (db : DB) (leave_type_id : Int) : Option LeaveType :=
  db.leave_types.find? (fun t => t.leave_type_id == leave_type_id)

/-- Embedding of the request schema `LeaveApplicationCreate`
(`app/schemas/leave.py`). -/
structure LeaveApplicationCreate where
  leave_type_id : Int
  start_date : Date
  end_date : Date
  reason : String
  attachments : Option String
deriving DecidableEq, Repr

/-- Embedding of the request schema `LeaveApplicationUpdate`
(`app/schemas/leave.py`); `none` stands for a field absent from the request
(`exclude_unset`). -/
structure LeaveApplicationUpdate where
  start_date : Option Date
  end_date : Option Date
  reason : Option String
  attachments : Option String
deriving DecidableEq, Repr

/-- Embedding of the request schema `LeaveApprovalRequest`
(`app/schemas/leave.py`): a decision plus an optional rejection reason.  Its
only field validator restricts `status` to approved/rejected; there is no
validator on `rejection_reason`. -/
structure LeaveApprovalRequest where
  status : LeaveStatus
  rejection_reason : Option String
deriving DecidableEq, Repr

/-- Embedding of the route `apply_for_leave` (`app/api/v1/leaves.py`).  The
first two checks are the pydantic field validators of
`LeaveApplicationCreate` (non-empty `reason`; `end_date >= start_date`),
which run before the handler body.  Note the balance check is
`if balance and balance.remaining_days < total_days`: an absent balance row
does NOT fail the submission. -/
def apply_for_leave (leave_app : LeaveApplicationCreate) (current_user : Employee)
    (now : Int) (db : DB) : Except LeaveError (DB × LeaveApplication) :=
  if leave_app.reason.length < 1 then .error .validationError
  else if leave_app.end_date.dayIndex < leave_app.start_date.dayIndex then
    .error .validationError
  else
    match find_leave_type db leave_app.leave_type_id with
    | none => .error .notFound
    | some leave_type =>
      let total_days := calculate_leave_days leave_app.start_date leave_app.end_date
      let year := leave_app.start_date.year
      let insufficient :=
        match find_balance db current_user.employee_id leave_app.leave_type_id year with
        | some balance => decide (balance.remaining_days < total_days)
        | none => false
      if insufficient then .error .insufficientBalance
      else
        let db_application : LeaveApplication :=
          { leave_application_id := db.next_app_id
            employee_id := current_user.employee_id
            leave_type_id := leave_app.leave_type_id
            start_date := leave_app.start_date
            end_date := leave_app.end_date
            total_days := total_days
            reason := leave_app.reason
            status := LeaveStatus.pending
            approved_by := none
            applied_on := now
            approved_rejected_on := none
            rejection_reason := none
            attachments := leave_app.attachments }
        let db1 := { db with
          applications := db.applications ++ [db_application]
          next_app_id := db.next_app_id + 1 }
        let db2 :=
          match current_user.manager_id with
          | some m =>
            create_notification db1 m ("New Leave Application")
              (current_user.full_name ++ " has applied for " ++ leave_type.type_name
                ++ " from " ++ dateStr leave_app.start_date ++ " to "
                ++ dateStr leave_app.end_date)
              NotificationType.leave
              (some ("/leaves/applications/" ++ toString db_application.leave_application_id))
          | none => db1
        .ok (db2, db_application)

/-- Embedding of the route `approve_leave` (`app/api/v1/leaves.py`).  The
first check is the `get_current_manager_or_admin` dependency
(`app/dependencies.py`); the second is the pydantic `status` validator of
`LeaveApprovalRequest`.  Note that, beyond the role gate, the handler performs
no authorization against the applicant, and that the balance barely gets
looked up: on approval it debits the first matching balance row when one
exists (`if balance:`) and otherwise proceeds without any balance change or
failure.  The notification step reads `leave_type.type_name` without a guard,
so a missing leave type crashes the request before commit
(`internalError`). -/
def approve_leave (application_id : Int) (approval_request : LeaveApprovalRequest)
    (current_user : Employee) (now : Int) (db : DB) :
    Except LeaveError (DB × LeaveApplication) :=
  if !(current_user.role == UserRole.admin || current_user.role == UserRole.manager) then
    .error .forbidden
  else if !(approval_request.status == LeaveStatus.approved
      || approval_request.status == LeaveStatus.rejected) then
    .error .validationError
  else
    match find_application db application_id with
    | none => .error .notFound
    | some application =>
      if application.status != LeaveStatus.pending then .error .invalidStateTransition
      else
        let application1 := { application with
          status := approval_request.status
          approved_by := some current_user.employee_id
          approved_rejected_on := some now
          rejection_reason :=
            if approval_request.status == LeaveStatus.rejected then
              approval_request.rejection_reason
            else application.rejection_reason }
        let db1 := { db with
          applications := update_first
            (fun a => a.leave_application_id == application_id)
            (fun _ => application1) db.applications }
        let db2 :=
          if approval_request.status == LeaveStatus.approved then
            match find_balance db application.employee_id application.leave_type_id
                application.start_date.year with
            | some _ =>
              { db1 with
                balances := update_first
                  (balance_matches application.employee_id application.leave_type_id
                    application.start_date.year)
                  (fun b =>
                    { b with
                      used_days := b.used_days + application.total_days
                      remaining_days :=
                        b.total_allocated - (b.used_days + application.total_days) })
                  db1.balances }
            | none => db1
          else db1
        match find_leave_type db application.leave_type_id with
        | none => .error .internalError
        | some leave_type =>
          let status_text :=
            if approval_request.status == LeaveStatus.approved then "approved" else "rejected"
          let title :=
            if approval_request.status == LeaveStatus.approved then
              "Leave Application Approved"
            else "Leave Application Rejected"
          let db3 := create_notification db2 application.employee_id title
            ("Your " ++ leave_type.type_name ++ " application from "
              ++ dateStr application.start_date ++ " to " ++ dateStr application.end_date
              ++ " has been " ++ status_text ++ " by " ++ current_user.full_name)
            NotificationType.leave
            (some ("/leaves/applications/" ++ toString application_id))
          .ok (db3, application1)

/-- Embedding of the route `cancel_leave` (`app/api/v1/leaves.py`).  Ownership
is checked before the state check; a previously approved application credits
back `total_days` on the first matching balance row when one exists.  The
manager notification is guarded only by `if current_user.manager_id:` — not by
the prior status — and, inside it, reads `leave_type.type_name` without a
guard (`internalError` when the leave type row is missing). -/
def cancel_leave (application_id : Int) (current_user : Employee) (db : DB) :
    Except LeaveError (DB × LeaveApplication) :=
  match find_application db application_id with
  | none => .error .notFound
  | some application =>
    if application.employee_id != current_user.employee_id then .error .forbidden
    else if !(application.status == LeaveStatus.pending
        || application.status == LeaveStatus.approved) then
      .error .invalidStateTransition
    else
      let db1 :=
        if application.status == LeaveStatus.approved then
          match find_balance db application.employee_id application.leave_type_id
              application.start_date.year with
          | some _ =>
            { db with
              balances := update_first
                (balance_matches application.employee_id application.leave_type_id
                  application.start_date.year)
                (fun b =>
                  { b with
                    used_days := b.used_days - application.total_days
                    remaining_days :=
                      b.total_allocated - (b.used_days - application.total_days) })
                db.balances }
          | none => db
        else db
      let application1 := { application with status := LeaveStatus.cancelled }
      let db2 := { db1 with
        applications := update_first
          (fun a => a.leave_application_id == application_id)
          (fun _ => application1) db1.applications }
      match current_user.manager_id with
      | none => .ok (db2, application1)
      | some m =>
        match find_leave_type db application.leave_type_id with
        | none => .error .internalError
        | some leave_type =>
          .ok (create_notification db2 m ("Leave Application Cancelled")
            (current_user.full_name ++ " has cancelled their " ++ leave_type.type_name
              ++ " application from " ++ dateStr application.start_date ++ " to "
              ++ dateStr application.end_date)
            NotificationType.leave
            (some ("/leaves/applications/" ++ toString application_id)),
            application1)

/-- Embedding of the route `update_leave_application` (`app/api/v1/leaves.py`).
The first check is the pydantic validator of `LeaveApplicationUpdate` (a
provided `reason` must be non-empty).  `total_days` is recomputed exactly when
a date field is present in the request; only the fields of the update schema
(and `total_days`) are written back. -/
def update_leave_application (application_id : Int) (leave_update : LeaveApplicationUpdate)
    (current_user : Employee) (db : DB) : Except LeaveError (DB × LeaveApplication) :=
  if (match leave_update.reason with
      | some r => r.length < 1
      | none => false : Bool) then .error .validationError
  else
    match find_application db application_id with
    | none => .error .notFound
    | some application =>
      if application.employee_id != current_user.employee_id then .error .forbidden
      else if application.status != LeaveStatus.pending then .error .invalidStateTransition
      else
        let new_start := leave_update.start_date.getD application.start_date
        let new_end := leave_update.end_date.getD application.end_date
        let new_total :=
          if leave_update.start_date.isSome || leave_update.end_date.isSome then
            calculate_leave_days new_start new_end
          else application.total_days
        let application1 := { application with
          start_date := new_start
          end_date := new_end
          reason := leave_update.reason.getD application.reason
          attachments :=
            match leave_update.attachments with
            | some a => some a
            | none => application.attachments
          total_days := new_total }
        .ok ({ db with
          applications := update_first
            (fun a => a.leave_application_id == application_id)
            (fun _ => application1) db.applications }, application1)

/-- The `subordinates` relationship of `Employee` (`app/models/employee.py`):
employees whose `manager_id` equals the given employee id (non-transitive). -/
def subordinates (db : DB) (u : Employee) : List Employee :=
  db.employees.filter (fun e => e.manager_id == some u.employee_id)

/-- Embedding of `LeaveService.has_sufficient_balance`
(`app/services/leave_service.py`): the service-layer sufficiency check, which
treats an absent balance row as insufficient (fails closed).  Returns
`(ok, message, available)` as the source does. -/
def LeaveService.has_sufficient_balance (db : DB) (employee_id leave_type_id : Int)
    (start_date end_date : Date) : Bool × String × Option Rat :=
  let year := start_date.year
  let total_days := calculate_leave_days start_date end_date
  match find_balance db employee_id leave_type_id year with
  | none => (false, "No leave balance found for year " ++ toString year, none)
  | some balance =>
    if balance.remaining_days < total_days then
      (false, "Insufficient leave balance. Available: "
        ++ toString balance.remaining_days ++ " days", some balance.remaining_days)
    else (true, "Sufficient balance", some balance.remaining_days)

/-- Embedding of `LeaveService.can_approve_leave`
(`app/services/leave_service.py`): admin may approve anything, a manager only
applications of direct subordinates.  (The message strings are paraphrased
without punctuation; they carry no meaning for the claims.) -/
def LeaveService.can_approve_leave (db : DB) (current_user : Employee)
    (application : LeaveApplication) : Bool × String :=
  if current_user.role == UserRole.admin then
    (true, "Admin can approve")
  else if current_user.role == UserRole.manager then
    if ((subordinates db current_user).map (fun e => e.employee_id)).contains
        application.employee_id then
      (true, "Manager can approve subordinate leaves")
    else (false, "Can only approve subordinate leaves")
  else (false, "Insufficient privileges to approve leaves")

/-- Fixture: the annual-leave type used by the concrete scenarios. -/
def exType : LeaveType := { leave_type_id := 1, type_name := "Annual Leave" }

/-- Fixture: an employee (id 2) reporting to manager id 3. -/
def exEmployee : Employee :=
  { employee_id := 2, first_name := "Eve", last_name := "Lau",
    manager_id := some 3, role := UserRole.employee }

/-- Fixture: an admin (id 5). -/
def exAdmin : Employee :=
  { employee_id := 5, first_name := "Ada", last_name := "Minh",
    manager_id := none, role := UserRole.admin }

/-- Fixture: a manager (id 4) with no direct reports; in particular employee 2
is not among their subordinates. -/
def exManagerUnrelated : Employee :=
  { employee_id := 4, first_name := "Mia", last_name := "Chen",
    manager_id := none, role := UserRole.manager }

/-- Fixture: the start date of a three-day leave. -/
def exStart : Date := { year := 2025, dayIndex := 739320 }

/-- Fixture: the end date of the three-day leave (inclusive count = 3). -/
def exEnd : Date := { year := 2025, dayIndex := 739322 }

/-- Fixture: a pending application (id 1) of employee 2 over the three days. -/
def exAppPending : LeaveApplication :=
  { leave_application_id := 1, employee_id := 2, leave_type_id := 1,
    start_date := exStart, end_date := exEnd, total_days := 3,
    reason := "vacation", status := LeaveStatus.pending, approved_by := none,
    applied_on := 0, approved_rejected_on := none, rejection_reason := none,
    attachments := none }

/-- Fixture: the same application already approved by the admin. -/
def exAppApproved : LeaveApplication :=
  { exAppPending with
    status := LeaveStatus.approved
    approved_by := some 5
    approved_rejected_on := some 7 }

/-- Fixture: a balance row of employee 2 for leave type 1 in 2025 with only
one remaining day (insufficient for a three-day leave). -/
def exBalanceLow : LeaveBalance :=
  { balance_id := 1, employee_id := 2, leave_type_id := 1, year := 2025,
    total_allocated := 10, used_days := 9, remaining_days := 1 }

/-- Fixture: a balance row of employee 2 after a three-day debit from
allocated 20, used 5. -/
def exBalanceMid : LeaveBalance :=
  { balance_id := 1, employee_id := 2, leave_type_id := 1, year := 2025,
    total_allocated := 20, used_days := 8, remaining_days := 12 }

/-- Fixture: store with a pending three-day application and an insufficient
balance row (remaining 1 < 3). -/
def exDB_low : DB :=
  { employees := [exEmployee, exAdmin], leave_types := [exType],
    balances := [exBalanceLow], applications := [exAppPending],
    notifications := [], next_app_id := 2 }

/-- Fixture: store with NO balance row for employee 2 and no applications. -/
def exDB_nobalance : DB :=
  { employees := [exEmployee], leave_types := [exType], balances := [],
    applications := [], notifications := [], next_app_id := 1 }

/-- Fixture: store with a pending application of employee 2 and a manager
(id 4) unrelated to employee 2. -/
def exDB_unrelated : DB :=
  { employees := [exEmployee, exManagerUnrelated], leave_types := [exType],
    balances := [], applications := [exAppPending],
    notifications := [], next_app_id := 2 }

/-- Fixture: store with the approved application and the post-debit balance. -/
def exDB_approved : DB :=
  { employees := [exEmployee, exAdmin], leave_types := [exType],
    balances := [exBalanceMid], applications := [exAppApproved],
    notifications := [], next_app_id := 2 }

/-- Fixture: a submission request for the three-day leave. -/
def exCreate : LeaveApplicationCreate :=
  { leave_type_id := 1, start_date := exStart, end_date := exEnd,
    reason := "vacation", attachments := none }

/-- The store a route leaves behind: the new store on success, the unchanged
one on failure (an HTTPException raised before `db.commit()` persists
nothing). -/
def resultDB (r : Except LeaveError (DB × LeaveApplication)) (db : DB) : DB :=
  match r with
  | .ok (db', _) => db'
  | .error _ => db

/-- Fixture: the balance of the specification scenario
(allocated 20, used 5, remaining 15). -/
def exBalanceFresh : LeaveBalance :=
  { balance_id := 1, employee_id := 2, leave_type_id := 1, year := 2025,
    total_allocated := 20, used_days := 5, remaining_days := 15 }

/-- Fixture: store of the specification scenario — a pending three-day
application against the fresh balance. -/
def exDB_fresh : DB :=
  { employees := [exEmployee, exAdmin], leave_types := [exType],
    balances := [exBalanceFresh], applications := [exAppPending],
    notifications := [], next_app_id := 2 }

/-- Fixture: the application after a rejection. -/
def exAppRejected : LeaveApplication :=
  { exAppPending with
    status := LeaveStatus.rejected
    approved_by := some 5
    approved_rejected_on := some 7
    rejection_reason := some "busy period" }

/-- Fixture: store holding only the rejected application. -/
def exDB_rejected : DB :=
  { employees := [exEmployee, exAdmin], leave_types := [exType],
    balances := [exBalanceLow], applications := [exAppRejected],
    notifications := [], next_app_id := 2 }

/-- Fixture: an edit request moving the end date one day later. -/
def exUpdate : LeaveApplicationUpdate :=
  { start_date := none, end_date := some { year := 2025, dayIndex := 739323 },
    reason := none, attachments := none }

/-- Fixture: a submission request whose end date precedes its start date. -/
def exCreateBad : LeaveApplicationCreate :=
  { leave_type_id := 1, start_date := exEnd, end_date := exStart,
    reason := "vacation", attachments := none }

section UpdateFirstLemmas

variable {α : Type} {p : α → Bool} {f g : α → α}

/-- When no row matches, an in-place mutation of `first()` touches nothing. -/
theorem update_first_of_find?_none {l : List α} (h : l.find? p = none) :
    update_first p f l = l := by
  induction l with
  | nil => rfl
  | cons x xs ih =>
    by_cases hpx : p x
    · simp [List.find?_cons, hpx] at h
    · simp only [List.find?_cons, hpx] at h
      simp [update_first, hpx, ih h]

/-- Looking up the first match after mutating it returns the mutated row,
provided the mutation keeps the row matching. -/
theorem find?_update_first (hp : ∀ a, p a = true → p (f a) = true) (l : List α) :
    (update_first p f l).find? p = (l.find? p).map f := by
  induction l with
  | nil => rfl
  | cons x xs ih =>
    by_cases hpx : p x
    · simp [update_first, hpx, List.find?_cons, hp x hpx]
    · simp [update_first, hpx, List.find?_cons, ih]

/-- Two successive in-place mutations of the same first match compose,
provided the first mutation keeps the row matching. -/
theorem update_first_update_first (hp : ∀ a, p a = true → p (f a) = true) (l : List α) :
    update_first p g (update_first p f l) = update_first p (fun x => g (f x)) l := by
  induction l with
  | nil => rfl
  | cons x xs ih =>
    by_cases hpx : p x
    · simp [update_first, hpx, hp x hpx]
    · simp [update_first, hpx, ih]

/-- A pointwise-identity mutation leaves the row list unchanged. -/
theorem update_first_eq_self {l : List α} (h : ∀ x ∈ l, f x = x) :
    update_first p f l = l := by
  induction l with
  | nil => rfl
  | cons x xs ih =>
    by_cases hpx : p x
    · simp [update_first, hpx, h x (List.mem_cons_self x xs)]
    · simp [update_first, hpx]
      exact ih fun y hy => h y (List.mem_cons_of_mem x hy)

/-- Every row after an in-place mutation is either an old row or the image of
an old row. -/
theorem mem_update_first {l : List α} {b : α} :
    b ∈ update_first p f l → b ∈ l ∨ ∃ a, a ∈ l ∧ b = f a := by
  induction l with
  | nil => intro h; simp [update_first] at h
  | cons x xs ih =>
    intro h
    by_cases hpx : p x
    · simp only [update_first, hpx, if_true] at h
      cases h with
      | head => exact Or.inr ⟨x, List.mem_cons_self x xs, rfl⟩
      | tail _ h1 => exact Or.inl (List.mem_cons_of_mem x h1)
    · simp only [update_first, hpx, if_false] at h
      cases h with
      | head => exact Or.inl (List.mem_cons_self _ _)
      | tail _ h1 =>
        rcases ih h1 with h' | ⟨a, ha, hb⟩
        · exact Or.inl (List.mem_cons_of_mem x h')
        · exact Or.inr ⟨a, List.mem_cons_of_mem x ha, hb⟩

/-- Positionally, an in-place mutation of `first()` changes at most the
position holding the row `find?` returns. -/
theorem getElem?_update_first (p : α → Bool) (f : α → α) (l : List α) (k : Nat) :
    (update_first p f l)[k]? = l[k]? ∨
      ∃ a, l.find? p = some a ∧ l[k]? = some a ∧
        (update_first p f l)[k]? = some (f a) := by
  induction l generalizing k with
  | nil => exact Or.inl rfl
  | cons x xs ih =>
    by_cases hpx : p x
    · cases k with
      | zero =>
        exact Or.inr ⟨x, by simp [List.find?_cons, hpx], by simp, by simp [update_first, hpx]⟩
      | succ k => exact Or.inl (by simp [update_first, hpx])
    · cases k with
      | zero => exact Or.inl (by simp [update_first, hpx])
      | succ k =>
        rcases ih k with h | ⟨a, hfind, hget, hget'⟩
        · exact Or.inl (by simpa [update_first, hpx] using h)
        · exact Or.inr ⟨a, by simp [List.find?_cons, hpx, hfind], by simpa using hget,
            by simpa [update_first, hpx] using hget'⟩

end UpdateFirstLemmas

/-- Characterization of a successful approve: a pending application was found
by id and is replaced in place, and the balance list is either untouched or
debited in place by the day count of the application. -/
theorem approve_ok_shape {application_id : Int} {approval_request : LeaveApprovalRequest}
    {current_user : Employee} {now : Int} {db db' : DB} {a' : LeaveApplication}
    (h : approve_leave application_id approval_request current_user now db = .ok (db', a')) :
    ∃ application, find_application db application_id = some application
      ∧ application.status = LeaveStatus.pending
      ∧ a' = { application with
          status := approval_request.status
          approved_by := some current_user.employee_id
          approved_rejected_on := some now
          rejection_reason :=
            if approval_request.status == LeaveStatus.rejected then
              approval_request.rejection_reason
            else application.rejection_reason }
      ∧ db'.applications = update_first
          (fun a => a.leave_application_id == application_id) (fun _ => a') db.applications
      ∧ db'.balances =
          (if approval_request.status == LeaveStatus.approved then
            match find_balance db application.employee_id application.leave_type_id
                application.start_date.year with
            | some _ =>
              update_first
                (balance_matches application.employee_id application.leave_type_id
                  application.start_date.year)
                (fun b => { b with
                  used_days := b.used_days + application.total_days
                  remaining_days := b.total_allocated - (b.used_days + application.total_days) })
                db.balances
            | none => db.balances
          else db.balances)
      ∧ db'.employees = db.employees
      ∧ db'.leave_types = db.leave_types := by
  rcases hfind : find_application db application_id with _ | application
  all_goals simp only [approve_leave, hfind] at h
  · split at h
    · exact absurd h (by simp)
    split at h
    · exact absurd h (by simp)
    exact absurd h (by simp)
  · split at h
    · exact absurd h (by simp)
    split at h
    · exact absurd h (by simp)
    split at h
    · exact absurd h (by simp)
    rename_i hpend
    rcases hlt : find_leave_type db application.leave_type_id with _ | lt
    all_goals simp only [hlt] at h
    · exact absurd h (by simp)
    · rw [Except.ok.injEq, Prod.mk.injEq] at h
      obtain ⟨hdb', ha'⟩ := h
      subst hdb'
      subst ha'
      refine ⟨application, rfl, by simpa using hpend, ?_, ?_, ?_, ?_, ?_⟩
      all_goals simp only [create_notification]
      all_goals repeat' split
      all_goals rfl

/-- Characterization of a successful cancel: the application was found by id,
was pending or approved, belongs to the caller, is replaced in place, and the
balance list is either untouched or credited in place. -/
theorem cancel_ok_shape {application_id : Int} {current_user : Employee} {db db' : DB}
    {a' : LeaveApplication}
    (h : cancel_leave application_id current_user db = .ok (db', a')) :
    ∃ application, find_application db application_id = some application
      ∧ (application.status = LeaveStatus.pending ∨ application.status = LeaveStatus.approved)
      ∧ application.employee_id = current_user.employee_id
      ∧ a' = { application with status := LeaveStatus.cancelled }
      ∧ db'.applications = update_first
          (fun a => a.leave_application_id == application_id) (fun _ => a') db.applications
      ∧ db'.balances =
          (if application.status == LeaveStatus.approved then
            match find_balance db application.employee_id application.leave_type_id
                application.start_date.year with
            | some _ =>
              update_first
                (balance_matches application.employee_id application.leave_type_id
                  application.start_date.year)
                (fun b => { b with
                  used_days := b.used_days - application.total_days
                  remaining_days := b.total_allocated - (b.used_days - application.total_days) })
                db.balances
            | none => db.balances
          else db.balances)
      ∧ db'.employees = db.employees
      ∧ db'.leave_types = db.leave_types := by
  rcases hfind : find_application db application_id with _ | application
  all_goals simp only [cancel_leave, hfind] at h
  · exact absurd h (by simp)
  · split at h
    · exact absurd h (by simp)
    rename_i howner
    split at h
    · exact absurd h (by simp)
    rename_i hstate
    rcases hmid : current_user.manager_id with _ | m
    all_goals simp only [hmid] at h
    · rw [Except.ok.injEq, Prod.mk.injEq] at h
      obtain ⟨hdb', ha'⟩ := h
      subst hdb'
      subst ha'
      refine ⟨application, rfl, or_iff_not_imp_left.mpr (by simpa using hstate),
        by simpa using howner, rfl, ?_, ?_, ?_, ?_⟩
      all_goals repeat' split
      all_goals rfl
    · rcases hlt : find_leave_type db application.leave_type_id with _ | lt
      all_goals simp only [hlt] at h
      · exact absurd h (by simp)
      · rw [Except.ok.injEq, Prod.mk.injEq] at h
        obtain ⟨hdb', ha'⟩ := h
        subst hdb'
        subst ha'
        refine ⟨application, rfl, or_iff_not_imp_left.mpr (by simpa using hstate),
          by simpa using howner, rfl, ?_, ?_, ?_, ?_⟩
        all_goals simp only [create_notification]
        all_goals repeat' split
        all_goals rfl

/-- Characterization of a successful edit: the application was found by id,
was pending, belongs to the caller, and is replaced in place; nothing else in
the store changes — in particular no balance row and no notification. -/
theorem update_ok_shape {application_id : Int} {leave_update : LeaveApplicationUpdate}
    {current_user : Employee} {db db' : DB} {a' : LeaveApplication}
    (h : update_leave_application application_id leave_update current_user db
      = .ok (db', a')) :
    ∃ application, find_application db application_id = some application
      ∧ application.status = LeaveStatus.pending
      ∧ application.employee_id = current_user.employee_id
      ∧ db'.applications = update_first
          (fun a => a.leave_application_id == application_id) (fun _ => a') db.applications
      ∧ db'.balances = db.balances ∧ db'.notifications = db.notifications
      ∧ db'.employees = db.employees ∧ db'.leave_types = db.leave_types
      ∧ a'.status = application.status
      ∧ a'.employee_id = application.employee_id
      ∧ a'.leave_type_id = application.leave_type_id
      ∧ a'.approved_by = application.approved_by
      ∧ a'.applied_on = application.applied_on
      ∧ a'.approved_rejected_on = application.approved_rejected_on
      ∧ a'.rejection_reason = application.rejection_reason
      ∧ a'.start_date = leave_update.start_date.getD application.start_date
      ∧ a'.end_date = leave_update.end_date.getD application.end_date
      ∧ a'.reason = leave_update.reason.getD application.reason
      ∧ a'.total_days =
          (if leave_update.start_date.isSome || leave_update.end_date.isSome then
            calculate_leave_days (leave_update.start_date.getD application.start_date)
              (leave_update.end_date.getD application.end_date)
          else application.total_days) := by
  rcases hfind : find_application db application_id with _ | application
  all_goals simp only [update_leave_application, hfind] at h
  · split at h
    · exact absurd h (by simp)
    · exact absurd h (by simp)
  · split at h
    · exact absurd h (by simp)
    split at h
    · exact absurd h (by simp)
    rename_i howner
    split at h
    · exact absurd h (by simp)
    rename_i hpend
    rw [Except.ok.injEq, Prod.mk.injEq] at h
    obtain ⟨hdb', ha'⟩ := h
    subst hdb'
    subst ha'
    exact ⟨application, rfl, by simpa using hpend, by simpa using howner, rfl, rfl, rfl,
      rfl, rfl, rfl, rfl, rfl, rfl, rfl, rfl, rfl, rfl, rfl, rfl, rfl⟩

/-- Characterization of a successful submission: the new application is
appended to the store and no balance row changes. -/
theorem apply_ok_shape {leave_app : LeaveApplicationCreate} {current_user : Employee}
    {now : Int} {db db' : DB} {a' : LeaveApplication}
    (h : apply_for_leave leave_app current_user now db = .ok (db', a')) :
    db'.applications = db.applications ++ [a'] ∧ db'.balances = db.balances := by
  simp only [apply_for_leave] at h
  split at h
  · exact absurd h (by simp)
  split at h
  · exact absurd h (by simp)
  rcases hlt : find_leave_type db leave_app.leave_type_id with _ | lt
  all_goals simp only [hlt] at h
  · exact absurd h (by simp)
  · split at h
    · exact absurd h (by simp)
    rcases hmid : current_user.manager_id with _ | m
    all_goals simp only [hmid] at h
    all_goals {
      rw [Except.ok.injEq, Prod.mk.injEq] at h
      obtain ⟨hdb', ha'⟩ := h
      subst hdb'
      subst ha'
      exact ⟨rfl, rfl⟩ }

/-- Claim C1 (status: the code contradicts the specified behaviour).  The
claim says approving a pending application whose balance row has
`remaining_days < total_days` must fail with `InsufficientBalance`, leave the
status `Pending` and leave the ledger unchanged.  Evaluating the embedded
route on a pending three-day application against a balance with one remaining
day shows the decision SUCCEEDS: the application becomes `approved` and the
ledger is debited past zero, to `used_days = 12`, `remaining_days = -2`. -/
theorem C1_approve_ignores_balance :
    (approve_leave 1 { status := LeaveStatus.approved, rejection_reason := none }
        exAdmin 7 exDB_low).toOption.map
        (fun out => (out.2.status,
          out.1.balances.map (fun b => (b.used_days, b.remaining_days)))) =
      some (LeaveStatus.approved, [((12 : Rat), (-2 : Rat))]) := by
  simp [approve_leave, exDB_low, exAdmin, exAppPending, exBalanceLow, exType,
    exEmployee, exStart, exEnd, find_application, find_balance, find_leave_type,
    balance_matches, update_first, create_notification, List.find?]
  refine ⟨_, _, rfl, rfl, ?_⟩
  norm_num

/-- Claim C2 (status: the code contradicts the specified behaviour).  The
claim says a submission with no balance row for `(employee, leave_type, year)`
must fail with `InsufficientBalance` and create nothing.  Evaluating the
embedded route on a store with no balance row shows the submission SUCCEEDS
and creates a `pending` application, while the service-layer check
`LeaveService.has_sufficient_balance` — the fail-closed policy the claim
describes, which the route never calls — reports insufficiency on the same
store. -/
theorem C2_submit_fails_open_without_balance_row :
    ((apply_for_leave exCreate exEmployee 0 exDB_nobalance).toOption.map
        (fun out => (out.2.status, out.1.applications.length)) =
      some (LeaveStatus.pending, 1))
    ∧ (LeaveService.has_sufficient_balance exDB_nobalance 2 1 exStart exEnd).1 = false := by
  constructor
  · simp [apply_for_leave, exDB_nobalance, exCreate, exEmployee, exType, exStart,
      exEnd, find_balance, find_leave_type, balance_matches, create_notification,
      calculate_leave_days, List.find?]
    rw [if_neg (by decide)]
    exact ⟨_, _, rfl, rfl, rfl⟩
  · simp [LeaveService.has_sufficient_balance, exDB_nobalance, find_balance,
      List.find?]

/-- Claim C3 (status: the code contradicts the specified behaviour).  The
claim says a manager whose direct-report set does not contain the owner must
get `Forbidden`.  Evaluating the embedded route shows a manager with no
subordinates successfully approves the pending application of employee 2, while
the service-layer policy `LeaveService.can_approve_leave` — which the route
never calls — denies exactly this actor. -/
theorem C3_unrelated_manager_can_approve :
    ((approve_leave 1 { status := LeaveStatus.approved, rejection_reason := none }
        exManagerUnrelated 7 exDB_unrelated).toOption.map
        (fun out => out.2.status) = some LeaveStatus.approved)
    ∧ (LeaveService.can_approve_leave exDB_unrelated exManagerUnrelated exAppPending).1
        = false := by
  constructor
  · simp [approve_leave, exDB_unrelated, exManagerUnrelated, exAppPending, exType,
      exEmployee, exStart, exEnd, find_application, find_balance, find_leave_type,
      balance_matches, update_first, create_notification, List.find?]
    exact ⟨_, _, rfl, rfl⟩
  · simp [LeaveService.can_approve_leave, subordinates, exDB_unrelated,
      exManagerUnrelated, exEmployee, exAppPending]

/-- Claim C7 (status: the code contradicts the specified behaviour).  The
specification requires a reject to carry a non-empty `rejection_reason` and
to fail with `ValidationError` when it is absent or empty, leaving the
application `Pending`.  Evaluating the embedded route (including the pydantic
validator of `LeaveApprovalRequest`, which constrains only `status` — no
check of `rejection_reason` exists anywhere in the code) on a reject with
`rejection_reason = none` shows the call SUCCEEDS: the application becomes
`rejected` with `rejection_reason = none`. -/
theorem C7_reject_without_reason_succeeds :
    (approve_leave 1 { status := LeaveStatus.rejected, rejection_reason := none }
        exAdmin 7 exDB_low).toOption.map
        (fun out => (out.2.status, out.2.rejection_reason)) =
      some (LeaveStatus.rejected, none) := by
  simp [approve_leave, exDB_low, exAdmin, exAppPending, exBalanceLow, exType,
    exEmployee, exStart, exEnd, find_application, find_balance, find_leave_type,
    balance_matches, update_first, create_notification, List.find?]
  exact ⟨_, _, rfl, rfl, rfl⟩

/-- Claim C9 (status: the code contradicts the specified behaviour and its
own comment).  The claim says the manager of the applicant is notified only when
the prior status was `Pending`.  Evaluating the embedded cancel route on an
APPROVED application of an employee who has a manager shows a manager
notification IS created (the guard is `if current_user.manager_id:`, with no
check of the prior status, although the source comments the block with
"Notify manager if it was pending"). -/
theorem C9_cancel_of_approved_notifies_manager :
    (cancel_leave 1 exEmployee exDB_approved).toOption.map
        (fun out => (out.2.status,
          out.1.notifications.map (fun n => (n.employee_id, n.title)))) =
      some (LeaveStatus.cancelled, [((3 : Int), "Leave Application Cancelled")]) := by
  simp [cancel_leave, exDB_approved, exAppApproved, exAppPending, exBalanceMid,
    exType, exEmployee, exStart, exEnd, find_application, find_balance,
    find_leave_type, balance_matches, update_first, create_notification,
    List.find?]
  exact ⟨_, _, rfl, rfl, rfl⟩

/-- The status found at any position survives an in-place replacement of the
first match, provided the replaced row did not carry that status. -/
theorem status_at_update_first {p : LeaveApplication → Bool}
    {f : LeaveApplication → LeaveApplication} {l : List LeaveApplication}
    {app : LeaveApplication} {k : Nat} {s : LeaveStatus}
    (hfind : l.find? p = some app) (hne : app.status ≠ s)
    (hs : (l[k]?).map (fun a => a.status) = some s) :
    ((update_first p f l)[k]?).map (fun a => a.status) = some s := by
  rcases getElem?_update_first p f l k with hcase | ⟨a, hfa, hga, -⟩
  · rw [hcase]
    exact hs
  · rw [hfind] at hfa
    injection hfa with hfa
    subst hfa
    rw [hga] at hs
    simp only [Option.map_some'] at hs
    exact absurd (Option.some.inj hs) fun hcontra => hne hcontra

/-- The status found at any position of the original list survives appending
new rows. -/
theorem status_at_append {l xs : List LeaveApplication} {k : Nat} {s : LeaveStatus}
    (hs : (l[k]?).map (fun a => a.status) = some s) :
    ((l ++ xs)[k]?).map (fun a => a.status) = some s := by
  rcases hg : l[k]? with _ | a
  · rw [hg] at hs
    simp at hs
  · obtain ⟨hk, -⟩ := List.getElem?_eq_some.mp hg
    rw [List.getElem?_append_left hk, hg]
    rw [hg] at hs
    exact hs

/-- Claim C5: after every operation that mutates a balance row — the debit
performed on approval and the credit performed on cancellation of an approved
application — every balance row of the resulting store either was already
present untouched or satisfies
`remaining_days = total_allocated - used_days`: both mutations recompute
`remaining_days` from the other two fields. -/
theorem C5_ledger_invariant_after_mutation
    (application_id : Int) (approval_request : LeaveApprovalRequest)
    (current_user owner : Employee) (now : Int) (db : DB) :
    (∀ b ∈ (resultDB (approve_leave application_id approval_request current_user now db)
        db).balances,
      b ∈ db.balances ∨ b.remaining_days = b.total_allocated - b.used_days)
    ∧ (∀ b ∈ (resultDB (cancel_leave application_id owner db) db).balances,
      b ∈ db.balances ∨ b.remaining_days = b.total_allocated - b.used_days) := by
  constructor
  · rcases hres : approve_leave application_id approval_request current_user now db
      with e | ⟨db', a'⟩
    · intro b hb
      simp only [resultDB] at hb
      exact Or.inl hb
    · intro b hb
      simp only [resultDB] at hb
      rcases approve_ok_shape hres with ⟨app, -, -, -, -, hbal, -, -⟩
      rw [hbal] at hb
      split at hb
      · split at hb
        · rcases mem_update_first hb with h' | ⟨a, -, hba⟩
          · exact Or.inl h'
          · subst hba
            exact Or.inr rfl
        · exact Or.inl hb
      · exact Or.inl hb
  · rcases hres : cancel_leave application_id owner db with e | ⟨db', a'⟩
    · intro b hb
      simp only [resultDB] at hb
      exact Or.inl hb
    · intro b hb
      simp only [resultDB] at hb
      rcases cancel_ok_shape hres with ⟨app, -, -, -, -, -, hbal, -, -⟩
      rw [hbal] at hb
      split at hb
      · split at hb
        · rcases mem_update_first hb with h' | ⟨a, -, hba⟩
          · exact Or.inl h'
          · subst hba
            exact Or.inr rfl
        · exact Or.inl hb
      · exact Or.inl hb

/-- Witness for C5: the specification scenario.  Approving the pending
three-day application against the fresh balance (allocated 20, used 5)
produces the balance row (used 8, remaining 12), and cancelling the approved
application against that balance produces (used 5, remaining 15); both rows
are in the mutated stores and satisfy the invariant. -/
theorem C5_witness :
    (exBalanceMid ∈ (resultDB (approve_leave 1
        { status := LeaveStatus.approved, rejection_reason := none }
        exAdmin 7 exDB_fresh) exDB_fresh).balances
      ∧ (exBalanceMid ∈ exDB_fresh.balances ∨
          exBalanceMid.remaining_days = exBalanceMid.total_allocated - exBalanceMid.used_days))
    ∧ (exBalanceFresh ∈ (resultDB (cancel_leave 1 exEmployee exDB_approved)
        exDB_approved).balances
      ∧ (exBalanceFresh ∈ exDB_approved.balances ∨
          exBalanceFresh.remaining_days
            = exBalanceFresh.total_allocated - exBalanceFresh.used_days)) := by
  have hm1 : exBalanceMid ∈ (resultDB (approve_leave 1
      { status := LeaveStatus.approved, rejection_reason := none }
      exAdmin 7 exDB_fresh) exDB_fresh).balances := by
    simp [approve_leave, resultDB, exDB_fresh, exAdmin, exAppPending, exBalanceFresh,
      exBalanceMid, exType, exEmployee, exStart, exEnd, find_application, find_balance,
      find_leave_type, balance_matches, update_first, create_notification, List.find?]
    norm_num
  have hm2 : exBalanceFresh ∈ (resultDB (cancel_leave 1 exEmployee exDB_approved)
      exDB_approved).balances := by
    simp [cancel_leave, resultDB, exDB_approved, exAppApproved, exAppPending,
      exBalanceMid, exBalanceFresh, exType, exEmployee, exStart, exEnd,
      find_application, find_balance, find_leave_type, balance_matches, update_first,
      create_notification, List.find?]
    norm_num
  exact ⟨⟨hm1, (C5_ledger_invariant_after_mutation 1
      { status := LeaveStatus.approved, rejection_reason := none }
      exAdmin exEmployee 7 exDB_fresh).1 exBalanceMid hm1⟩,
    ⟨hm2, (C5_ledger_invariant_after_mutation 1
      { status := LeaveStatus.approved, rejection_reason := none }
      exAdmin exEmployee 7 exDB_approved).2 exBalanceFresh hm2⟩⟩

/-- Claim C8: a submission whose `end_date` precedes its `start_date` is
refused by the request validator with `ValidationError` on every store alike —
the result does not depend on the store, so no balance row is consulted, no
application is created, and nothing changes. -/
theorem C8_invalid_dates_rejected_before_ledger
    (leave_app : LeaveApplicationCreate) (current_user : Employee) (now : Int) (db : DB)
    (h : leave_app.end_date.dayIndex < leave_app.start_date.dayIndex) :
    apply_for_leave leave_app current_user now db = .error .validationError := by
  unfold apply_for_leave
  by_cases hr : leave_app.reason.length < 1
  · rw [if_pos hr]
  · rw [if_neg hr, if_pos h]

/-- Witness for C8: a concrete reversed-dates submission is refused. -/
theorem C8_witness :
    exCreateBad.end_date.dayIndex < exCreateBad.start_date.dayIndex
    ∧ apply_for_leave exCreateBad exEmployee 0 exDB_nobalance
        = .error .validationError :=
  ⟨by decide,
    C8_invalid_dates_rejected_before_ledger exCreateBad exEmployee 0 exDB_nobalance
      (by decide)⟩

/-- Claim C6: the status follows the state machine
`Pending -> (Approved | Rejected | Cancelled)` and `Approved -> Cancelled`
only.  Part 1: approve/reject on a non-pending application fails with
`InvalidStateTransition`.  Part 2: cancel on a rejected or cancelled
application fails with `InvalidStateTransition`.  Parts 3-6: none of the four
operations (submit, approve, cancel, edit) ever changes the status of an
application that is rejected or cancelled. -/
theorem C6_state_machine :
    (∀ (application_id : Int) (approval_request : LeaveApprovalRequest)
        (current_user : Employee) (now : Int) (db : DB) (application : LeaveApplication),
      (current_user.role == UserRole.admin || current_user.role == UserRole.manager) = true →
      (approval_request.status == LeaveStatus.approved
        || approval_request.status == LeaveStatus.rejected) = true →
      find_application db application_id = some application →
      application.status ≠ LeaveStatus.pending →
      approve_leave application_id approval_request current_user now db
        = .error .invalidStateTransition)
    ∧ (∀ (application_id : Int) (current_user : Employee) (db : DB)
        (application : LeaveApplication),
      find_application db application_id = some application →
      application.employee_id = current_user.employee_id →
      (application.status = LeaveStatus.rejected
        ∨ application.status = LeaveStatus.cancelled) →
      cancel_leave application_id current_user db = .error .invalidStateTransition)
    ∧ (∀ (leave_app : LeaveApplicationCreate) (current_user : Employee) (now : Int)
        (db : DB) (k : Nat) (s : LeaveStatus),
      (db.applications[k]?).map (fun a => a.status) = some s →
      (s = LeaveStatus.rejected ∨ s = LeaveStatus.cancelled) →
      (((resultDB (apply_for_leave leave_app current_user now db) db).applications[k]?).map
        (fun a => a.status)) = some s)
    ∧ (∀ (application_id : Int) (approval_request : LeaveApprovalRequest)
        (current_user : Employee) (now : Int) (db : DB) (k : Nat) (s : LeaveStatus),
      (db.applications[k]?).map (fun a => a.status) = some s →
      (s = LeaveStatus.rejected ∨ s = LeaveStatus.cancelled) →
      (((resultDB (approve_leave application_id approval_request current_user now db)
          db).applications[k]?).map (fun a => a.status)) = some s)
    ∧ (∀ (application_id : Int) (current_user : Employee) (db : DB) (k : Nat)
        (s : LeaveStatus),
      (db.applications[k]?).map (fun a => a.status) = some s →
      (s = LeaveStatus.rejected ∨ s = LeaveStatus.cancelled) →
      (((resultDB (cancel_leave application_id current_user db)
          db).applications[k]?).map (fun a => a.status)) = some s)
    ∧ (∀ (application_id : Int) (leave_update : LeaveApplicationUpdate)
        (current_user : Employee) (db : DB) (k : Nat) (s : LeaveStatus),
      (db.applications[k]?).map (fun a => a.status) = some s →
      (s = LeaveStatus.rejected ∨ s = LeaveStatus.cancelled) →
      (((resultDB (update_leave_application application_id leave_update current_user db)
          db).applications[k]?).map (fun a => a.status)) = some s) := by
  refine ⟨?_, ?_, ?_, ?_, ?_, ?_⟩
  · intro application_id approval_request current_user now db application hrole hreq hfind hne
    have hb : (application.status != LeaveStatus.pending) = true := by
      simpa using hne
    simp [approve_leave, hrole, hreq, hfind, hb]
  · intro application_id current_user db application hfind howner hterm
    have h1 : (application.employee_id != current_user.employee_id) = false := by
      simp [howner]
    have h2 : (application.status == LeaveStatus.pending
        || application.status == LeaveStatus.approved) = false := by
      rcases hterm with h | h <;> simp [h]
    simp [cancel_leave, hfind, h1, h2]
  · intro leave_app current_user now db k s hs hterm
    rcases hres : apply_for_leave leave_app current_user now db with e | ⟨db', a'⟩
    · simpa only [resultDB] using hs
    · simp only [resultDB]
      obtain ⟨happs, -⟩ := apply_ok_shape hres
      rw [happs]
      exact status_at_append hs
  · intro application_id approval_request current_user now db k s hs hterm
    rcases hres : approve_leave application_id approval_request current_user now db
      with e | ⟨db', a'⟩
    · simpa only [resultDB] using hs
    · simp only [resultDB]
      obtain ⟨app, hfind, hpend, -, happs, -, -, -⟩ := approve_ok_shape hres
      rw [happs]
      refine status_at_update_first hfind ?_ hs
      rw [hpend]
      rcases hterm with h | h <;> simp [h]
  · intro application_id current_user db k s hs hterm
    rcases hres : cancel_leave application_id current_user db with e | ⟨db', a'⟩
    · simpa only [resultDB] using hs
    · simp only [resultDB]
      obtain ⟨app, hfind, hstate, -, -, happs, -, -, -⟩ := cancel_ok_shape hres
      rw [happs]
      refine status_at_update_first hfind ?_ hs
      rcases hstate with h | h <;> rw [h] <;> rcases hterm with h' | h' <;> simp [h']
  · intro application_id leave_update current_user db k s hs hterm
    rcases hres : update_leave_application application_id leave_update current_user db
      with e | ⟨db', a'⟩
    · simpa only [resultDB] using hs
    · simp only [resultDB]
      obtain ⟨app, hfind, hpend, -, happs, -⟩ := update_ok_shape hres
      rw [happs]
      refine status_at_update_first hfind ?_ hs
      rw [hpend]
      rcases hterm with h | h <;> simp [h]

/-- Claim C4: approving a pending application and then cancelling it restores
the balance list exactly — the credit of `total_days` performed by the cancel
is the exact inverse of the debit of `total_days` performed by the approval
(no date edit can intervene, since edits require `pending` status).  The
hypothesis that the initial rows satisfy the ledger invariant is what the
ledger always provides (see C5); without it `used_days` would still round-trip
but `remaining_days` would be recomputed from the invariant. -/
theorem C4_approve_cancel_round_trip
    (application_id : Int) (current_user owner : Employee) (now : Int) (db : DB)
    (application : LeaveApplication) (lt : LeaveType)
    (hrole : (current_user.role == UserRole.admin
      || current_user.role == UserRole.manager) = true)
    (hfind : find_application db application_id = some application)
    (hpend : application.status = LeaveStatus.pending)
    (howner : owner.employee_id = application.employee_id)
    (hlt : find_leave_type db application.leave_type_id = some lt)
    (hinv : ∀ b ∈ db.balances, b.remaining_days = b.total_allocated - b.used_days) :
    ∃ db₁ a₁ db₂ a₂,
      approve_leave application_id
          { status := LeaveStatus.approved, rejection_reason := none }
          current_user now db = .ok (db₁, a₁)
      ∧ cancel_leave application_id owner db₁ = .ok (db₂, a₂)
      ∧ db₂.balances = db.balances := by
  have hpendb : (application.status != LeaveStatus.pending) = false := by simp [hpend]
  obtain ⟨db₁, a₁, happrove⟩ : ∃ d a, approve_leave application_id
      { status := LeaveStatus.approved, rejection_reason := none }
      current_user now db = .ok (d, a) :=
    ⟨_, _, by
      simp only [approve_leave, hrole, hfind, hpendb, hlt]
      rfl⟩
  obtain ⟨app0, hfind0, -, ha1, happs1, hbal1, -, hlts1⟩ := approve_ok_shape happrove
  rw [hfind] at hfind0
  injection hfind0 with happ0
  subst happ0
  have hfind' : db.applications.find? (fun a => a.leave_application_id == application_id)
      = some application := hfind
  have hp0 : (application.leave_application_id == application_id) = true :=
    List.find?_some (p := fun a : LeaveApplication => a.leave_application_id == application_id)
      (a := application) hfind
  have hp1 : (a₁.leave_application_id == application_id) = true := by
    rw [ha1]
    exact hp0
  have hstat1 : (a₁.status == LeaveStatus.pending || a₁.status == LeaveStatus.approved)
      = true := by
    simp [ha1]
  have hown1 : (a₁.employee_id != owner.employee_id) = false := by
    simp [ha1, howner]
  have hfind1 : find_application db₁ application_id = some a₁ := by
    show db₁.applications.find? (fun a => a.leave_application_id == application_id)
      = some a₁
    rw [happs1, find?_update_first
      (p := fun a => a.leave_application_id == application_id)
      (f := fun _ => a₁) (fun a _ => hp1), hfind']
    rfl
  have hlt1 : find_leave_type db₁ a₁.leave_type_id = some lt := by
    rw [ha1]
    show db₁.leave_types.find? (fun t => t.leave_type_id == application.leave_type_id)
      = some lt
    rw [hlts1]
    exact hlt
  obtain ⟨db₂, a₂, hcancel⟩ : ∃ d a, cancel_leave application_id owner db₁ = .ok (d, a) := by
    rcases hmid : owner.manager_id with _ | m
    · exact ⟨_, _, by
        simp only [cancel_leave, hfind1, hown1, hstat1, hmid]
        rfl⟩
    · exact ⟨_, _, by
        simp only [cancel_leave, hfind1, hown1, hstat1, hmid, hlt1]
        rfl⟩
  obtain ⟨app2, hfind2, -, -, -, -, hbal2, -, -⟩ := cancel_ok_shape hcancel
  rw [hfind1] at hfind2
  injection hfind2 with happ2
  subst happ2
  refine ⟨db₁, a₁, db₂, a₂, happrove, hcancel, ?_⟩
  have he1 : a₁.employee_id = application.employee_id := by rw [ha1]
  have ht1 : a₁.leave_type_id = application.leave_type_id := by rw [ha1]
  have hs1 : a₁.start_date = application.start_date := by rw [ha1]
  have hd1 : a₁.total_days = application.total_days := by rw [ha1]
  have hsa1 : (a₁.status == LeaveStatus.approved) = true := by simp [ha1]
  rw [he1, ht1, hs1, hd1, hsa1] at hbal2
  simp only [if_true] at hbal2
  simp only [beq_self_eq_true, if_true] at hbal1
  rcases hfb : find_balance db application.employee_id application.leave_type_id
      application.start_date.year with _ | b
  · simp only [hfb] at hbal1
    have hfb1 : find_balance db₁ application.employee_id application.leave_type_id
        application.start_date.year = none := by
      show db₁.balances.find? (balance_matches application.employee_id
        application.leave_type_id application.start_date.year) = none
      rw [hbal1]
      exact hfb
    rw [hfb1] at hbal2
    rw [hbal2, hbal1]
  · simp only [hfb] at hbal1
    have hfb1 : find_balance db₁ application.employee_id application.leave_type_id
        application.start_date.year = some { b with
          used_days := b.used_days + application.total_days
          remaining_days := b.total_allocated - (b.used_days + application.total_days) } := by
      have hfb2 : db.balances.find? (balance_matches application.employee_id
          application.leave_type_id application.start_date.year) = some b := hfb
      show db₁.balances.find? (balance_matches application.employee_id
        application.leave_type_id application.start_date.year) = some _
      rw [hbal1, find?_update_first
        (p := balance_matches application.employee_id application.leave_type_id
          application.start_date.year)
        (f := fun b => { b with
          used_days := b.used_days + application.total_days
          remaining_days := b.total_allocated - (b.used_days + application.total_days) })
        (fun a ha => ha), hfb2]
      rfl
    rw [hfb1] at hbal2
    rw [hbal2, hbal1, update_first_update_first
      (p := balance_matches application.employee_id application.leave_type_id
        application.start_date.year)
      (f := fun b => { b with
        used_days := b.used_days + application.total_days
        remaining_days := b.total_allocated - (b.used_days + application.total_days) })
      (g := fun b => { b with
        used_days := b.used_days - application.total_days
        remaining_days := b.total_allocated - (b.used_days - application.total_days) })
      (fun a ha => ha)]
    refine update_first_eq_self ?_
    intro x hx
    have hxinv := hinv x hx
    obtain ⟨i, e, t, y, alloc, used, rem⟩ := x
    simp only at hxinv
    simp only [LeaveBalance.mk.injEq, true_and]
    constructor
    · exact add_sub_cancel_right used application.total_days
    · rw [add_sub_cancel_right]
      exact hxinv.symm

/-- Witness for C4: the specification scenario.  The admin approves the
pending three-day application of employee 2 against the fresh balance
(allocated 20, used 5, remaining 15); the employee then cancels; the balance
list returns to its initial value. -/
theorem C4_witness :
    ((exAdmin.role == UserRole.admin || exAdmin.role == UserRole.manager) = true)
    ∧ find_application exDB_fresh 1 = some exAppPending
    ∧ exAppPending.status = LeaveStatus.pending
    ∧ exEmployee.employee_id = exAppPending.employee_id
    ∧ find_leave_type exDB_fresh exAppPending.leave_type_id = some exType
    ∧ (∀ b ∈ exDB_fresh.balances, b.remaining_days = b.total_allocated - b.used_days)
    ∧ ∃ db₁ a₁ db₂ a₂,
        approve_leave 1 { status := LeaveStatus.approved, rejection_reason := none }
          exAdmin 7 exDB_fresh = .ok (db₁, a₁)
        ∧ cancel_leave 1 exEmployee db₁ = .ok (db₂, a₂)
        ∧ db₂.balances = exDB_fresh.balances := by
  have hinv : ∀ b ∈ exDB_fresh.balances,
      b.remaining_days = b.total_allocated - b.used_days := by
    intro b hb
    simp only [exDB_fresh, List.mem_singleton] at hb
    subst hb
    norm_num [exBalanceFresh]
  exact ⟨by decide, by decide, by decide, by decide, by decide, hinv,
    C4_approve_cancel_round_trip 1 exAdmin exEmployee 7 exDB_fresh exAppPending exType
      (by decide) (by decide) (by decide) (by decide) (by decide) hinv⟩

/-- Claim C10: an edit of a pending application by its owner succeeds and can
change only `start_date`, `end_date`, `reason`, `attachments` and the
recomputed `total_days`; the fields `status`, `employee_id`, `leave_type_id`,
`approved_by`, `applied_on` and `rejection_reason` are unchanged;
`total_days` is recomputed exactly when a date field is supplied; and the edit
touches no balance row and no other table. -/
theorem C10_edit_frame
    (application_id : Int) (leave_update : LeaveApplicationUpdate)
    (current_user : Employee) (db : DB) (application : LeaveApplication)
    (hreason : ∀ r, leave_update.reason = some r → 1 ≤ r.length)
    (hfind : find_application db application_id = some application)
    (howner : application.employee_id = current_user.employee_id)
    (hpend : application.status = LeaveStatus.pending) :
    ∃ db' a', update_leave_application application_id leave_update current_user db
        = .ok (db', a')
      ∧ db'.balances = db.balances
      ∧ db'.notifications = db.notifications
      ∧ db'.employees = db.employees
      ∧ db'.leave_types = db.leave_types
      ∧ a'.status = application.status
      ∧ a'.employee_id = application.employee_id
      ∧ a'.leave_type_id = application.leave_type_id
      ∧ a'.approved_by = application.approved_by
      ∧ a'.applied_on = application.applied_on
      ∧ a'.rejection_reason = application.rejection_reason
      ∧ a'.start_date = leave_update.start_date.getD application.start_date
      ∧ a'.end_date = leave_update.end_date.getD application.end_date
      ∧ a'.reason = leave_update.reason.getD application.reason
      ∧ a'.total_days =
          (if leave_update.start_date.isSome || leave_update.end_date.isSome then
            calculate_leave_days (leave_update.start_date.getD application.start_date)
              (leave_update.end_date.getD application.end_date)
          else application.total_days) := by
  have hownb : (application.employee_id != current_user.employee_id) = false := by
    simp [howner]
  have hpendb : (application.status != LeaveStatus.pending) = false := by simp [hpend]
  obtain ⟨db', a', h⟩ : ∃ d a, update_leave_application application_id leave_update
      current_user db = .ok (d, a) := by
    rcases hr : leave_update.reason with _ | r
    · exact ⟨_, _, by
        simp only [update_leave_application, hr, hfind, hownb, hpendb]
        rfl⟩
    · have hlen : decide (r.length < 1) = false := by
        have := hreason r hr
        simp
        omega
      exact ⟨_, _, by
        simp only [update_leave_application, hr, hlen, hfind, hownb, hpendb]
        rfl⟩
  obtain ⟨app0, hfind0, -, -, -, hrest⟩ := update_ok_shape h
  rw [hfind] at hfind0
  injection hfind0 with happ0
  subst happ0
  obtain ⟨hbal, hnot, hemp, hlts, hst, hemp2, hltid, happr, happl, -, hrej, hsd, hed,
    hre, htd⟩ := hrest
  exact ⟨db', a', h, hbal, hnot, hemp, hlts, hst, hemp2, hltid, happr, happl, hrej,
    hsd, hed, hre, htd⟩

/-- Witness for C10: the owner moves the end date of the pending three-day
application one day later; the edit succeeds, leaves everything but the dates,
reason, attachments and day count unchanged, and recomputes `total_days`. -/
theorem C10_witness :
    (∀ r, exUpdate.reason = some r → 1 ≤ r.length)
    ∧ find_application exDB_fresh 1 = some exAppPending
    ∧ exAppPending.employee_id = exEmployee.employee_id
    ∧ exAppPending.status = LeaveStatus.pending
    ∧ ∃ db' a', update_leave_application 1 exUpdate exEmployee exDB_fresh = .ok (db', a')
      ∧ db'.balances = exDB_fresh.balances
      ∧ db'.notifications = exDB_fresh.notifications
      ∧ db'.employees = exDB_fresh.employees
      ∧ db'.leave_types = exDB_fresh.leave_types
      ∧ a'.status = exAppPending.status
      ∧ a'.employee_id = exAppPending.employee_id
      ∧ a'.leave_type_id = exAppPending.leave_type_id
      ∧ a'.approved_by = exAppPending.approved_by
      ∧ a'.applied_on = exAppPending.applied_on
      ∧ a'.rejection_reason = exAppPending.rejection_reason
      ∧ a'.start_date = exUpdate.start_date.getD exAppPending.start_date
      ∧ a'.end_date = exUpdate.end_date.getD exAppPending.end_date
      ∧ a'.reason = exUpdate.reason.getD exAppPending.reason
      ∧ a'.total_days =
          (if exUpdate.start_date.isSome || exUpdate.end_date.isSome then
            calculate_leave_days (exUpdate.start_date.getD exAppPending.start_date)
              (exUpdate.end_date.getD exAppPending.end_date)
          else exAppPending.total_days) :=
  ⟨by decide, by decide, by decide, by decide,
    C10_edit_frame 1 exUpdate exEmployee exDB_fresh exAppPending (by decide) (by decide)
      (by decide) (by decide)⟩

/-- Witness for C6: on the store holding the rejected application, approve and
cancel fail with `InvalidStateTransition`, and each of the four operations
leaves the rejected status in place. -/
theorem C6_witness :
    (approve_leave 1 { status := LeaveStatus.approved, rejection_reason := none }
        exAdmin 7 exDB_rejected = .error .invalidStateTransition)
    ∧ (cancel_leave 1 exEmployee exDB_rejected = .error .invalidStateTransition)
    ∧ (((resultDB (apply_for_leave exCreate exEmployee 0 exDB_rejected)
        exDB_rejected).applications[0]?).map (fun a => a.status)
          = some LeaveStatus.rejected)
    ∧ (((resultDB (approve_leave 1
          { status := LeaveStatus.approved, rejection_reason := none }
          exAdmin 7 exDB_rejected)
        exDB_rejected).applications[0]?).map (fun a => a.status)
          = some LeaveStatus.rejected)
    ∧ (((resultDB (cancel_leave 1 exEmployee exDB_rejected)
        exDB_rejected).applications[0]?).map (fun a => a.status)
          = some LeaveStatus.rejected)
    ∧ (((resultDB (update_leave_application 1 exUpdate exEmployee exDB_rejected)
        exDB_rejected).applications[0]?).map (fun a => a.status)
          = some LeaveStatus.rejected) :=
  ⟨C6_state_machine.1 1 { status := LeaveStatus.approved, rejection_reason := none }
      exAdmin 7 exDB_rejected exAppRejected (by decide) (by decide) (by decide) (by decide),
   C6_state_machine.2.1 1 exEmployee exDB_rejected exAppRejected (by decide) (by decide)
      (by decide),
   C6_state_machine.2.2.1 exCreate exEmployee 0 exDB_rejected 0 LeaveStatus.rejected
      (by decide) (by decide),
   C6_state_machine.2.2.2.1 1 { status := LeaveStatus.approved, rejection_reason := none }
      exAdmin 7 exDB_rejected 0 LeaveStatus.rejected (by decide) (by decide),
   C6_state_machine.2.2.2.2.1 1 exEmployee exDB_rejected 0 LeaveStatus.rejected
      (by decide) (by decide),
   C6_state_machine.2.2.2.2.2 1 exUpdate exEmployee exDB_rejected 0 LeaveStatus.rejected
      (by decide) (by decide)⟩

end Attendance
